import Mathlib

/-!
Verification of `GoogleAnalyticsReportingToGCSOperator`
(src/operators/google_analytics_reporting_to_gcs_operator.py).

The operator pulls a Google Analytics report, flattens its rows into
newline-delimited JSON records and uploads the staged file to GCS.  The
development below is a shallow embedding of that code:

* Python dicts (as used for the output records) are insertion-ordered
  association lists; assignment replaces the value of an existing key in
  place and otherwise appends.
* `datetime.strptime(s, "%Y-%m-%d %H:%M:%S")` is modelled after CPython's
  `_strptime` regex semantics (4-digit year, 1-2 digit
  month/day/hour/minute/second with the ranges of the generated regex,
  a run of ASCII whitespace for the literal blank, full-match required)
  followed by the `datetime` constructor's validation (year >= 1,
  day <= days-in-month, second <= 59).  `strftime("%Y-%m-%d")` is modelled
  after glibc (unpadded year, zero-padded month and day).
* The `with NamedTemporaryFile(...)` block and the two collaborator calls
  are modelled by an event trace; the `with` combinator appends the close
  event whether the body returns normally or raises, which is the
  documented semantics of the Python `with` statement.
* Exceptions (`IndexError` from list indexing, upload failures) are
  modelled with `Except`.
-/

/-! ## Python dict model -/

/-- An insertion-ordered Python dict with string keys and values (every
value the operator stores is a string in the modelled scenarios). -/
abbrev Dict := List (String × String)

/-- `d[k] = v` in Python: replace in place if the key exists, else append. -/
def dictSet : Dict → String → String → Dict
  | [], k, v => [(k, v)]
  | (k', v') :: rest, k, v =>
    if k' = k then (k, v) :: rest else (k', v') :: dictSet rest k v

/-- Key lookup, `d.get(k)` in Python. -/
def dictGet : Dict → String → Option String
  | [], _ => Option.none
  | (k', v') :: rest, k => if k' = k then some v' else dictGet rest k

/-! ## String helpers used by the operator -/

/-- Per-character lowercasing, modelling `str.lower()` on the ASCII header
names the operator handles. -/
def strLower (s : String) : String :=
  String.mk (s.toList.map Char.toLower)

/-- One left-to-right non-overlapping pass removing every occurrence of
`"ga:"`, modelling Python's `header.replace("ga:", "")`. -/
def replaceGA : List Char → List Char
  | 'g' :: 'a' :: ':' :: rest => replaceGA rest
  | c :: rest => c :: replaceGA rest
  | [] => []

/-- `name.replace("ga:", "")` from the source. -/
def stripGA (s : String) : String :=
  String.mk (replaceGA s.toList)

/-- The spec-side reading of namespace stripping: remove `"ga:"` only when
it is the leading three characters of the name.  Declared solely to compare
with `stripGA`, which is what the code does. -/
def specStripGA (s : String) : String :=
  match s.toList with
  | 'g' :: 'a' :: ':' :: rest => String.mk rest
  | _ => s

/-! ## Report data model

`report.get(...)` defaults every missing key to an empty dict/list, so the
nested JSON is modelled by total structures whose absent fields are empty
lists. -/

/-- One entry of `columnHeader.metricHeader.metricHeaderEntries`; the
`type` key may be absent (`entry.get("type")` returning `None`). -/
structure MetricHeaderEntry where
  name : String
  type : Option String
deriving DecidableEq

/-- The report's `columnHeader`. -/
structure ColumnHeader where
  dimensions : List String
  metricHeaderEntries : List MetricHeaderEntry
deriving DecidableEq

/-- One row of `report.data.rows`: dimension values plus one value list per
metric group. -/
structure ReportRow where
  dimensions : List String
  metrics : List (List String)
deriving DecidableEq

/-- The whole report returned by `get_analytics_report`. -/
structure Report where
  columnHeader : ColumnHeader
  rows : List ReportRow
deriving DecidableEq

/-- A resolved column header: stripped name plus storage type hint. -/
structure Header where
  name : String
  type : String
deriving DecidableEq

/-- `self.metricMap.get(entry.get("type"), "varchar(255)")`: the fixed
lookup table from `__init__`, with the dict-get default for unknown or
missing types. -/
def metricMapGet (t : Option String) : String :=
  match t with
  | Option.none => "varchar(255)"
  | Option.some s =>
    if s = "METRIC_TYPE_UNSPECIFIED" then "varchar(255)"
    else if s = "CURRENCY" then "decimal(20,5)"
    else if s = "INTEGER" then "int(11)"
    else if s = "FLOAT" then "decimal(20,5)"
    else if s = "PERCENT" then "decimal(20,5)"
    else if s = "TIME" then "time"
    else "varchar(255)"

/-- The spec-side reading of the metric type map (claim C4's wording),
declared solely to compare with `metricMapGet`. -/
def specMetricType (t : Option String) : String :=
  match t with
  | Option.some s =>
    if s = "INTEGER" then "int(11)"
    else if s = "CURRENCY" then "decimal(20,5)"
    else if s = "FLOAT" then "decimal(20,5)"
    else if s = "PERCENT" then "decimal(20,5)"
    else if s = "TIME" then "time"
    else "varchar(255)"
  | Option.none => "varchar(255)"

/-- `dimensionHeaders` list comprehension: every dimension is typed
`varchar(255)`. -/
def dimensionHeaders (ch : ColumnHeader) : List Header :=
  ch.dimensions.map (fun h => ⟨stripGA h, "varchar(255)"⟩)

/-- `metricHeaders` list comprehension. -/
def metricHeaders (ch : ColumnHeader) : List Header :=
  ch.metricHeaderEntries.map (fun e => ⟨stripGA e.name, metricMapGet e.type⟩)

/-- The lower-cased record keys a header list contributes. -/
def headerKeys (hs : List Header) : List String :=
  hs.map (fun h => strLower h.name)

/-! ## Date normalization (`datetime.strptime` / `strftime`) -/

/-- Digit value of an ASCII digit character. -/
def digitVal (c : Char) : Nat := c.toNat - '0'.toNat

/-- Characters matched by the `\s` class of CPython's `_strptime` regex on
the ASCII inputs in scope. -/
def isPyWs (c : Char) : Bool :=
  c = ' ' || c = '\t' || c = '\n' || c = '\x0d' || c = '\x0b' || c = '\x0c'

/-- `%Y`: exactly four digits (`\d\d\d\d` in `_strptime`). -/
def parseYear4 : List Char → Option (Nat × List Char)
  | a :: b :: c :: d :: rest =>
    if a.isDigit && b.isDigit && c.isDigit && d.isDigit then
      some (((digitVal a * 10 + digitVal b) * 10 + digitVal c) * 10 + digitVal d, rest)
    else Option.none
  | _ => Option.none

/-- A one-or-two-digit field.  Two digits are accepted when their value is
in `[twoLo, twoHi]`; a lone digit is accepted when its value is at least
`oneLo`.  When two digits are present but form an out-of-range value the
regex backtracks to the one-digit branch and then fails on the following
literal (which is never a digit), so the whole parse fails, as modelled by
returning `none`. -/
def parseNum2 (oneLo twoLo twoHi : Nat) : List Char → Option (Nat × List Char)
  | a :: b :: rest =>
    if a.isDigit && b.isDigit then
      let v := digitVal a * 10 + digitVal b
      if twoLo ≤ v && v ≤ twoHi then some (v, rest) else Option.none
    else if a.isDigit then
      let v := digitVal a
      if oneLo ≤ v then some (v, b :: rest) else Option.none
    else Option.none
  | [a] =>
    if a.isDigit then
      let v := digitVal a
      if oneLo ≤ v then some (v, []) else Option.none
    else Option.none
  | [] => Option.none

/-- A literal character of the format string. -/
def parseLit (c : Char) : List Char → Option (List Char)
  | c' :: rest => if c' = c then some rest else Option.none
  | [] => Option.none

/-- The literal blank of the format, compiled by `_strptime` to `\s+`. -/
def parseWs1 : List Char → Option (List Char)
  | c :: rest => if isPyWs c then some (rest.dropWhile isPyWs) else Option.none
  | [] => Option.none

/-- Proleptic-Gregorian leap year, as used by `datetime`. -/
def isLeap (y : Nat) : Bool :=
  (y % 4 = 0 && y % 100 ≠ 0) || y % 400 = 0

/-- Days in a month, as validated by the `datetime` constructor. -/
def daysInMonth (y m : Nat) : Nat :=
  if m = 2 then (if isLeap y then 29 else 28)
  else if m = 4 || m = 6 || m = 9 || m = 11 then 30
  else 31

/-- `datetime.strptime(s, "%Y-%m-%d %H:%M:%S")`, returning the parsed
(year, month, day) on success and `none` when `ValueError` is raised
(regex mismatch, unconverted trailing data, or constructor validation). -/
def strptimeYmdHms (s : String) : Option (Nat × Nat × Nat) :=
  match parseYear4 s.toList with
  | Option.none => Option.none
  | some (y, r1) =>
    match parseLit '-' r1 with
    | Option.none => Option.none
    | some r2 =>
      match parseNum2 1 1 12 r2 with
      | Option.none => Option.none
      | some (mo, r3) =>
        match parseLit '-' r3 with
        | Option.none => Option.none
        | some r4 =>
          match parseNum2 1 1 31 r4 with
          | Option.none => Option.none
          | some (d, r5) =>
            match parseWs1 r5 with
            | Option.none => Option.none
            | some r6 =>
              match parseNum2 0 0 23 r6 with
              | Option.none => Option.none
              | some (_, r7) =>
                match parseLit ':' r7 with
                | Option.none => Option.none
                | some r8 =>
                  match parseNum2 0 0 59 r8 with
                  | Option.none => Option.none
                  | some (_, r9) =>
                    match parseLit ':' r9 with
                    | Option.none => Option.none
                    | some r10 =>
                      match parseNum2 0 0 61 r10 with
                      | Option.none => Option.none
                      | some (sec, r11) =>
                        if r11 = [] && 1 ≤ y && d ≤ daysInMonth y mo && sec ≤ 59 then
                          some (y, mo, d)
                        else Option.none

/-- Zero-padding to two digits (`%m`, `%d`). -/
def pad2 (n : Nat) : String :=
  if n < 10 then "0" ++ toString n else toString n

/-- `dt.strftime("%Y-%m-%d")` (glibc: unpadded year, padded month/day). -/
def fmtYmd (y m d : Nat) : String :=
  toString y ++ "-" ++ pad2 m ++ "-" ++ pad2 d

/-- The `try/except` date normalization from `execute`: reformat on parse
success, fall back to the original string (`str(self.since)`) on any
failure. -/
def sinceFormatted (s : String) : String :=
  match strptimeYmdHms s with
  | some (y, m, d) => fmtYmd y m d
  | Option.none => s

/-! ## Flattening -/

/-- One of the two `for index, value in enumerate(...)` loops: assign
`obj[headers[index].name.lower()] = value`, raising `IndexError` when the
value list is longer than the header list. -/
def setFields (headers : List Header) : Nat → List String → Dict → Except String Dict
  | _, [], d => Except.ok d
  | i, v :: vs, d =>
    match headers[i]? with
    | Option.none => Except.error "IndexError"
    | some h => setFields headers (i + 1) vs (dictSet d (strLower h.name) v)

/-- Sequential effectful map over a list, as the Python `for` loop over
metric groups behaves: the first raised exception aborts the loop. -/
def exMapM (f : α → Except String β) : List α → Except String (List β)
  | [] => Except.ok []
  | a :: as =>
    match f a with
    | Except.error e => Except.error e
    | Except.ok b =>
      match exMapM f as with
      | Except.error e => Except.error e
      | Except.ok bs => Except.ok (b :: bs)

/-- The body of the row loop: build `root_data_obj` from the dimensions,
then one record per metric group, each setting `viewid` and `timestamp`
last. -/
def recordsOfRow (dimH metH : List Header) (viewId since : String)
    (row : ReportRow) : Except String (List Dict) :=
  match setFields dimH 0 row.dimensions [] with
  | Except.error e => Except.error e
  | Except.ok root =>
    exMapM (fun grp =>
      match setFields metH 0 grp root with
      | Except.error e => Except.error e
      | Except.ok d =>
        Except.ok (dictSet (dictSet d "viewid" viewId) "timestamp" since)) row.metrics

/-! ## Serialization and the upload phase -/

/-- A JSON string literal; escaping is not modelled (no scenario in scope
contains characters needing escapes). -/
def jsonStr (s : String) : String := "\"" ++ s ++ "\""

/-- `", ".join(...)`-style interleaving. -/
def strIntercalate (sep : String) : List String → String
  | [] => ""
  | [a] => a
  | a :: b :: rest => a ++ sep ++ strIntercalate sep (b :: rest)

/-- Concatenation of a list of strings, in order. -/
def strConcat : List String → String
  | [] => ""
  | a :: rest => a ++ strConcat rest

/-- `json.dumps` on a string-valued dict with default separators. -/
def jsonDumps (d : Dict) : String :=
  "\x7b" ++ strIntercalate ", " (d.map (fun p => jsonStr p.1 ++ ": " ++ jsonStr p.2)) ++ "\x7d"

/-- The nested row/record write loop.  `total` is `len(rows)` and `i` the
0-based `row_counter` of `enumerate(rows)`; each record is written as
`json.dumps(data) + ("" if row_counter == len(rows) else "\n")`, exactly
as in the source. -/
def writeRows (dimH metH : List Header) (viewId since : String) (total : Nat) :
    Nat → List ReportRow → Except String String
  | _, [] => Except.ok ""
  | i, row :: rest =>
    match recordsOfRow dimH metH viewId since row with
    | Except.error e => Except.error e
    | Except.ok recs =>
      let chunk := strConcat (recs.map (fun r => jsonDumps r ++ (if i = total then "" else "\n")))
      match writeRows dimH metH viewId since total (i + 1) rest with
      | Except.error e => Except.error e
      | Except.ok s => Except.ok (chunk ++ s)

/-- The full content written to the temporary staging file. -/
def fileContent (report : Report) (viewId since : String) : Except String String :=
  writeRows (dimensionHeaders report.columnHeader) (metricHeaders report.columnHeader)
    viewId since report.rows.length 0 report.rows

/-- All output records of a report, in write order. -/
def allRecords (report : Report) (viewId since : String) : Except String (List Dict) :=
  match exMapM (recordsOfRow (dimensionHeaders report.columnHeader)
      (metricHeaders report.columnHeader) viewId since) report.rows with
  | Except.error e => Except.error e
  | Except.ok rss => Except.ok rss.flatten

/-- Observable events of one `execute` run.  The fetch call records the
normalized dates actually sent to `get_analytics_report`; the upload call
records the destination and the staged file content. -/
inductive Event where
  | fetchCall (since untl : String)
  | createTmp
  | uploadCall (bucket objname content : String)
  | closeTmp
deriving DecidableEq

/-- Body of the `with` block: the writes (which may raise `IndexError`),
then the upload call, whose outcome is the oracle `uploadOk`. -/
def uploadBody (content : Except String String) (bucket objname : String)
    (uploadOk : Bool) : List Event × Except String Unit :=
  match content with
  | Except.error e => ([], Except.error e)
  | Except.ok c =>
    ([Event.uploadCall bucket objname c],
     if uploadOk then Except.ok () else Except.error "UploadError")

/-- `with NamedTemporaryFile("w") as ga_file: ...` — the temporary file is
created on entry and closed (hence deleted) on exit whether the body
returns normally or raises, per the semantics of the `with` statement. -/
def withTmpFile (body : List Event × Except String Unit) : List Event × Except String Unit :=
  (Event.createTmp :: body.1 ++ [Event.closeTmp], body.2)

/-- The `execute` method: normalize the dates, fetch the report (the
`report` argument is the fetch collaborator's response), flatten and write
inside the `with` block, upload, close.  Returns the event trace and the
outcome. -/
def execute (viewId since untl bucket objname : String) (report : Report)
    (uploadOk : Bool) : List Event × Except String Unit :=
  let inner := withTmpFile (uploadBody (fileContent report viewId since) bucket objname uploadOk)
  (Event.fetchCall (sinceFormatted since) (sinceFormatted untl) :: inner.1, inner.2)

/-! ## Construction (`__init__`) -/

/-- A dynamically-typed Python value, for the `include_empty_rows`
argument whose type `__init__` checks with `isinstance(..., bool)`. -/
inductive PyVal where
  | bool (b : Bool)
  | int (n : Int)
  | str (s : String)
  | pyNone
deriving DecidableEq

/-- `isinstance(v, bool)` (Python `bool` is not any other type here). -/
def isPyBool : PyVal → Bool
  | PyVal.bool _ => true
  | _ => false

/-- The state stored by a successfully constructed operator. -/
structure GAConfig where
  view_id : String
  since : String
  untl : String
  dimensions : List String
  metrics : List String
  page_size : Int
  include_empty_rows : PyVal
  gcs_bucket : String
  gcs_objname : String
deriving DecidableEq

/-- `__init__`: store the arguments, then validate `page_size` and
`include_empty_rows`, raising on violation.  The trace component is the
list of collaborator calls made during construction — none: the hooks are
only built inside `execute`. -/
def initOperator (view_id since untl : String) (dimensions metrics : List String)
    (page_size : Int) (include_empty_rows : PyVal) (gcs_bucket gcs_objname : String) :
    List Event × Except String GAConfig :=
  ([],
   if page_size > 10000 then
     Except.error "Please specify a page size equal to or lower than 10000."
   else if !isPyBool include_empty_rows then
     Except.error "Please specificy \"include_empty_rows\" as a boolean."
   else
     Except.ok ⟨view_id, since, untl, dimensions, metrics, page_size,
       include_empty_rows, gcs_bucket, gcs_objname⟩)

/-! ## Dict and loop lemmas -/

lemma dictGet_set_self (d : Dict) (k v : String) : dictGet (dictSet d k v) k = some v := by
  induction d with
  | nil => simp [dictSet, dictGet]
  | cons p rest ih =>
    obtain ⟨a, b⟩ := p
    by_cases h : a = k
    · simp [dictSet, h, dictGet]
    · simp [dictSet, h, dictGet, ih]

lemma dictGet_set_other (d : Dict) (k k' v : String) (h : k ≠ k') :
    dictGet (dictSet d k v) k' = dictGet d k' := by
  induction d with
  | nil => simp [dictSet, dictGet, h]
  | cons p rest ih =>
    obtain ⟨a, b⟩ := p
    by_cases ha : a = k
    · subst ha
      simp [dictSet, dictGet, h]
    · simp [dictSet, ha, dictGet, ih]

lemma exMapM_ok_length (f : α → Except String β) :
    ∀ (l : List α) (bs : List β), exMapM f l = Except.ok bs → bs.length = l.length := by
  intro l
  induction l with
  | nil => intro bs h; simp [exMapM] at h; simp [← h]
  | cons a as ih =>
    intro bs h
    simp only [exMapM] at h
    cases hf : f a with
    | error e => rw [hf] at h; exact (Except.noConfusion h)
    | ok b =>
      rw [hf] at h
      cases hrest : exMapM f as with
      | error e => rw [hrest] at h; exact (Except.noConfusion h)
      | ok bs' =>
        rw [hrest] at h
        cases h
        simp [ih bs' hrest]

lemma exMapM_ok_mem (f : α → Except String β) :
    ∀ (l : List α) (bs : List β), exMapM f l = Except.ok bs →
      ∀ b ∈ bs, ∃ a ∈ l, f a = Except.ok b := by
  intro l
  induction l with
  | nil =>
    intro bs h
    simp [exMapM] at h
    subst h
    intro b hb
    cases hb
  | cons a as ih =>
    intro bs h
    simp only [exMapM] at h
    cases hf : f a with
    | error e => rw [hf] at h; exact (Except.noConfusion h)
    | ok b0 =>
      rw [hf] at h
      cases hrest : exMapM f as with
      | error e => rw [hrest] at h; exact (Except.noConfusion h)
      | ok bs' =>
        rw [hrest] at h
        cases h
        intro b hb
        rcases List.mem_cons.mp hb with hb | hb
        · exact ⟨a, List.mem_cons_self a as, hb ▸ hf⟩
        · rcases ih bs' hrest b hb with ⟨a', ha', hfa'⟩
          exact ⟨a', List.mem_cons_of_mem a ha', hfa'⟩

lemma exMapM_ok_of_all (f : α → Except String β) :
    ∀ (l : List α), (∀ a ∈ l, ∃ b, f a = Except.ok b) →
      ∃ bs, exMapM f l = Except.ok bs := by
  intro l
  induction l with
  | nil => intro _; exact ⟨[], rfl⟩
  | cons a as ih =>
    intro h
    rcases h a (List.mem_cons_self a as) with ⟨b, hb⟩
    rcases ih (fun x hx => h x (List.mem_cons_of_mem a hx)) with ⟨bs, hbs⟩
    exact ⟨b :: bs, by simp [exMapM, hb, hbs]⟩

lemma setFields_preserves (headers : List Header) (k : String)
    (hk : ¬ k ∈ headerKeys headers) :
    ∀ (vs : List String) (i : Nat) (d d' : Dict),
      setFields headers i vs d = Except.ok d' → dictGet d' k = dictGet d k := by
  intro vs
  induction vs with
  | nil =>
    intro i d d' h
    simp only [setFields] at h
    cases h
    rfl
  | cons v vs ih =>
    intro i d d' h
    simp only [setFields] at h
    cases hh : headers[i]? with
    | none => rw [hh] at h; exact (Except.noConfusion h)
    | some hd =>
      rw [hh] at h
      rw [ih (i + 1) _ d' h]
      apply dictGet_set_other
      intro he
      exact hk (he ▸ List.mem_map_of_mem _ (List.getElem?_mem hh))

lemma record_ids (d : Dict) (viewId since : String) :
    dictGet (dictSet (dictSet d "viewid" viewId) "timestamp" since) "viewid" = some viewId ∧
    dictGet (dictSet (dictSet d "viewid" viewId) "timestamp" since) "timestamp" = some since := by
  constructor
  · rw [dictGet_set_other _ _ _ _ (by decide)]
    exact dictGet_set_self _ _ _
  · exact dictGet_set_self _ _ _

lemma recordsOfRow_shape (dimH metH : List Header) (viewId since : String)
    (row : ReportRow) (recs : List Dict)
    (h : recordsOfRow dimH metH viewId since row = Except.ok recs) :
    ∃ root, setFields dimH 0 row.dimensions [] = Except.ok root ∧
      recs.length = row.metrics.length ∧
      ∀ r ∈ recs, ∃ grp d, grp ∈ row.metrics ∧ setFields metH 0 grp root = Except.ok d ∧
        r = dictSet (dictSet d "viewid" viewId) "timestamp" since := by
  simp only [recordsOfRow] at h
  cases hroot : setFields dimH 0 row.dimensions [] with
  | error e => rw [hroot] at h; exact (Except.noConfusion h)
  | ok root =>
    rw [hroot] at h
    refine ⟨root, rfl, exMapM_ok_length _ _ _ h, ?_⟩
    intro r hr
    rcases exMapM_ok_mem _ _ _ h r hr with ⟨grp, hgrp, hfr⟩
    cases hd : setFields metH 0 grp root with
    | error e => rw [hd] at hfr; exact (Except.noConfusion hfr)
    | ok d =>
      rw [hd] at hfr
      cases hfr
      exact ⟨grp, d, hgrp, hd, rfl⟩

lemma recordsOfRow_ids (dimH metH : List Header) (viewId since : String)
    (row : ReportRow) (recs : List Dict)
    (h : recordsOfRow dimH metH viewId since row = Except.ok recs) :
    ∀ r ∈ recs, dictGet r "viewid" = some viewId ∧ dictGet r "timestamp" = some since := by
  rcases recordsOfRow_shape dimH metH viewId since row recs h with ⟨root, _, _, hmem⟩
  intro r hr
  rcases hmem r hr with ⟨grp, d, _, _, hrEq⟩
  rw [hrEq]
  exact record_ids d viewId since

/-! ## Concrete example reports -/

/-- The end-to-end scenario of the spec: one dimension, one `INTEGER`
metric, one row. -/
def exReport : Report :=
  ⟨⟨["ga:country"], [⟨"ga:sessions", some "INTEGER"⟩]⟩, [⟨["US"], [["42"]]⟩]⟩

/-- A report whose single row carries more dimension values than the
column header declares. -/
def badDimReport : Report :=
  ⟨⟨["ga:country"], []⟩, [⟨["US", "extra"], [[]]⟩]⟩

/-- A report whose single metric group carries more values than there are
metric header entries. -/
def badMetReport : Report :=
  ⟨⟨["ga:country"], [⟨"ga:sessions", some "INTEGER"⟩]⟩, [⟨["US"], [["42", "extra"]]⟩]⟩

/-- The JSON serialization of the single record of `exReport`. -/
def exRecordJson : String :=
  "\x7b\"country\": \"US\", \"sessions\": \"42\", \"viewid\": \"123\", \"timestamp\": \"2021-05-01\"\x7d"

/-! ## Claim theorems -/

/-- C4: the resolved storage type hint is exactly `int(11)` for `INTEGER`,
`decimal(20,5)` for `CURRENCY`, `FLOAT` and `PERCENT`, `time` for `TIME`,
and `varchar(255)` for any other (unrecognized or unspecified) type: the
code's `metricMap.get(..., "varchar(255)")` agrees with the claim's table
on every possible type value. -/
theorem metric_type_mapping (t : Option String) : metricMapGet t = specMetricType t := by
  cases t with
  | none => rfl
  | some s =>
    simp only [metricMapGet, specMetricType]
    split_ifs <;> simp_all

/-- C2: dates parsing under `%Y-%m-%d %H:%M:%S` are reformatted to
`%Y-%m-%d` before being sent to the report-fetch collaborator; any string
failing that parse is passed through unchanged, with no error.  The first
conjunct shows the fetch event of `execute` carries the normalized dates;
the remaining conjuncts cover both branches of the normalization and the
spec's two example inputs. -/
theorem date_normalization :
    (∀ viewId since untl bucket objname report uploadOk,
      (execute viewId since untl bucket objname report uploadOk).1.head?
        = some (Event.fetchCall (sinceFormatted since) (sinceFormatted untl)))
  ∧ (∀ s y m d, strptimeYmdHms s = some (y, m, d) → sinceFormatted s = fmtYmd y m d)
  ∧ (∀ s, strptimeYmdHms s = Option.none → sinceFormatted s = s)
  ∧ sinceFormatted "2020-01-02 03:04:05" = "2020-01-02"
  ∧ sinceFormatted "2020-01-02" = "2020-01-02"
  ∧ strptimeYmdHms "2020-01-02" = Option.none := by
  refine ⟨fun _ _ _ _ _ _ _ => rfl, ?_, ?_, by decide, by decide, by decide⟩
  · intro s y m d h
    simp [sinceFormatted, h]
  · intro s h
    simp [sinceFormatted, h]

/-- Witness for C2 at the spec's example input: the parse succeeds and the
normalized date is the `%Y-%m-%d` reformatting. -/
theorem date_normalization_witness :
    sinceFormatted "2020-01-02 03:04:05" = fmtYmd 2020 1 2 :=
  date_normalization.2.1 "2020-01-02 03:04:05" 2020 1 2 (by decide)

/-- C3: construction fails iff `page_size > 10000` or `include_empty_rows`
is not a boolean, and it fails during `__init__`, which performs no
collaborator call (its event trace is empty); otherwise construction
succeeds. -/
theorem construction_validation (view_id since untl : String)
    (dimensions metrics : List String) (page_size : Int) (include_empty_rows : PyVal)
    (gcs_bucket gcs_objname : String) :
    (initOperator view_id since untl dimensions metrics page_size include_empty_rows
        gcs_bucket gcs_objname).1 = []
  ∧ ((∃ e, (initOperator view_id since untl dimensions metrics page_size include_empty_rows
        gcs_bucket gcs_objname).2 = Except.error e)
      ↔ (page_size > 10000 ∨ isPyBool include_empty_rows = false))
  ∧ (page_size ≤ 10000 → isPyBool include_empty_rows = true →
      ∃ cfg, (initOperator view_id since untl dimensions metrics page_size include_empty_rows
        gcs_bucket gcs_objname).2 = Except.ok cfg) := by
  refine ⟨rfl, ?_⟩
  simp only [initOperator]
  split_ifs with h1 h2
  · refine ⟨⟨fun _ => Or.inl h1, fun _ => ⟨_, rfl⟩⟩, fun hle _ => absurd h1 (not_lt.mpr hle)⟩
  · have hb : isPyBool include_empty_rows = false := by
      simpa using h2
    refine ⟨⟨fun _ => Or.inr hb, fun _ => ⟨_, rfl⟩⟩, fun _ htrue => ?_⟩
    rw [htrue] at hb
    cases hb
  · have hb : isPyBool include_empty_rows = true := by
      by_contra hc
      exact h2 (by simpa using hc)
    refine ⟨⟨?_, ?_⟩, fun _ _ => ⟨_, rfl⟩⟩
    · rintro ⟨e, he⟩
      exact he.elim
    · rintro (hgt | hfalse)
      · exact absurd hgt h1
      · rw [hb] at hfalse
        cases hfalse

/-- Witness for C3: a page size of 20000 is rejected at construction. -/
theorem construction_validation_witness :
    ∃ e, (initOperator "123" "2021-05-01" "2021-05-02" [] [] 20000 (PyVal.bool true)
      "bucket" "objname").2 = Except.error e :=
  (construction_validation "123" "2021-05-01" "2021-05-02" [] [] 20000 (PyVal.bool true)
    "bucket" "objname").2.1.mpr (Or.inl (by decide))

/-- C9: on every run — upload succeeding, upload raising, or the body
raising `IndexError` before the upload call — the temporary staging file
is closed exactly once, and the close event is the last event of the
trace, i.e. it happens after the upload call completes or throws. -/
theorem staging_released (viewId since untl bucket objname : String)
    (report : Report) (uploadOk : Bool) :
    (execute viewId since untl bucket objname report uploadOk).1.count Event.closeTmp = 1
  ∧ (execute viewId since untl bucket objname report uploadOk).1.getLast?
      = some Event.closeTmp := by
  cases h : fileContent report viewId since with
  | error e =>
    simp only [execute, withTmpFile, uploadBody, h]
    exact ⟨rfl, rfl⟩
  | ok c =>
    simp only [execute, withTmpFile, uploadBody, h]
    exact ⟨rfl, rfl⟩

/-- C10: a row with more dimension values than dimension headers (and
likewise a metric group with more values than metric headers) makes the
flattening index out of range: `execute` stops with `IndexError`, the
trace shows the staging file opened and closed but no upload call. -/
theorem oversized_row_aborts :
    execute "123" "2021-05-01" "2021-05-02" "bucket" "objname" badDimReport true
      = ([Event.fetchCall "2021-05-01" "2021-05-02", Event.createTmp, Event.closeTmp],
         Except.error "IndexError")
  ∧ execute "123" "2021-05-01" "2021-05-02" "bucket" "objname" badMetReport true
      = ([Event.fetchCall "2021-05-01" "2021-05-02", Event.createTmp, Event.closeTmp],
         Except.error "IndexError") :=
  ⟨rfl, rfl⟩

/-- Newline-delimited serialization with a newline after every record,
last record included.  What `writeRows` actually produces, because the
`row_counter == len(rows)` comparison guarding the final-newline
suppression can never be true for a 0-based counter. -/
def ndjsonOfRows (dimH metH : List Header) (viewId since : String)
    (rows : List ReportRow) : Except String String :=
  match exMapM (recordsOfRow dimH metH viewId since) rows with
  | Except.error e => Except.error e
  | Except.ok rss =>
    Except.ok (strConcat (rss.map (fun rs => strConcat (rs.map (fun r => jsonDumps r ++ "\n")))))

lemma writeRows_eq_ndjson (dimH metH : List Header) (viewId since : String) (total : Nat) :
    ∀ (rest : List ReportRow) (i : Nat), i + rest.length ≤ total →
      writeRows dimH metH viewId since total i rest = ndjsonOfRows dimH metH viewId since rest := by
  intro rest
  induction rest with
  | nil => intro i _; rfl
  | cons row rs ih =>
    intro i h
    simp only [List.length_cons] at h
    have hi : ¬ i = total := by omega
    have ih' := ih (i + 1) (by omega)
    simp only [writeRows, ndjsonOfRows, exMapM, ih', hi, if_false, ite_false]
    cases hr : recordsOfRow dimH metH viewId since row with
    | error e => simp [hr]
    | ok recs =>
      simp only [hr]
      cases hrest : exMapM (recordsOfRow dimH metH viewId since) rs with
      | error e => simp [ndjsonOfRows, hrest]
      | ok rss => simp [ndjsonOfRows, hrest, strConcat]

/-- C1 amended: every output record, the very last one included, is
followed by exactly one newline in the staging file; the branch meant to
drop the final newline is dead code. -/
theorem every_record_newline (report : Report) (viewId since : String) :
    fileContent report viewId since
      = ndjsonOfRows (dimensionHeaders report.columnHeader) (metricHeaders report.columnHeader)
          viewId since report.rows :=
  writeRows_eq_ndjson _ _ _ _ _ report.rows 0 (by omega)

/-- C1 counterexample: in the spec's end-to-end scenario (one row, one
record) the staged content is the record's JSON followed by `"\n"` — the
very last record does carry a trailing newline, contradicting the claim
that it is written without one. -/
theorem trailing_newline_cex :
    fileContent exReport "123" "2021-05-01" = Except.ok (exRecordJson ++ "\n")
  ∧ exRecordJson ++ "\n" ≠ exRecordJson :=
  ⟨rfl, by decide⟩

/-- The fan-out contract of one row: one record per metric group, all
records sharing `viewid`, `timestamp` and every field that is not a
metric field. -/
def rowRecordsProp (metH : List Header) (viewId since : String) (row : ReportRow)
    (recs : List Dict) : Prop :=
  recs.length = row.metrics.length ∧
  (∀ r ∈ recs, dictGet r "viewid" = some viewId ∧ dictGet r "timestamp" = some since) ∧
  (∀ r1 ∈ recs, ∀ r2 ∈ recs, ∀ k : String,
    ¬ k ∈ headerKeys metH → ¬ k = "viewid" → ¬ k = "timestamp" →
    dictGet r1 k = dictGet r2 k)

/-- C5: a row with `k` metric value-groups yields exactly `k` records; all
records of the row agree on `viewid`, on `timestamp`, and on every key
that is not a metric-header key — they differ only in metric fields. -/
theorem metric_group_fanout (dimH metH : List Header) (viewId since : String)
    (row : ReportRow) (recs : List Dict)
    (h : recordsOfRow dimH metH viewId since row = Except.ok recs) :
    rowRecordsProp metH viewId since row recs := by
  rcases recordsOfRow_shape dimH metH viewId since row recs h with ⟨root, _, hlen, hmem⟩
  refine ⟨hlen, recordsOfRow_ids dimH metH viewId since row recs h, ?_⟩
  have key : ∀ r ∈ recs, ∀ k : String,
      ¬ k ∈ headerKeys metH → ¬ k = "viewid" → ¬ k = "timestamp" →
      dictGet r k = dictGet root k := by
    intro r hr k hk hkv hkt
    rcases hmem r hr with ⟨grp, d, _, hd, hrEq⟩
    rw [hrEq]
    rw [dictGet_set_other _ _ _ _ (fun he => hkt he.symm)]
    rw [dictGet_set_other _ _ _ _ (fun he => hkv he.symm)]
    exact setFields_preserves metH k hk grp 0 root d hd
  intro r1 h1 r2 h2 k hk hkv hkt
  rw [key r1 h1 k hk hkv hkt, key r2 h2 k hk hkv hkt]

/-- A column header with two dimensions and one metric, for the spec's
fan-out example. -/
def exColumnHeader2 : ColumnHeader :=
  ⟨["ga:country", "ga:city"], [⟨"ga:sessions", some "INTEGER"⟩]⟩

/-- Witness for C5: a row with 2 dimensions and 2 metric groups yields
exactly 2 records sharing the dimension fields. -/
theorem metric_group_fanout_witness :
    rowRecordsProp (metricHeaders exColumnHeader2) "123" "2021-05-01"
      ⟨["US", "NYC"], [["42"], ["43"]]⟩
      [[("country", "US"), ("city", "NYC"), ("sessions", "42"),
        ("viewid", "123"), ("timestamp", "2021-05-01")],
       [("country", "US"), ("city", "NYC"), ("sessions", "43"),
        ("viewid", "123"), ("timestamp", "2021-05-01")]] :=
  metric_group_fanout (dimensionHeaders exColumnHeader2) (metricHeaders exColumnHeader2)
    "123" "2021-05-01" ⟨["US", "NYC"], [["42"], ["43"]]⟩ _ (by rfl)

/-- C6: every output record of a report carries `viewid` mapped to the
requested view id and `timestamp` mapped to the `since` string exactly as
supplied (`execute` hands the raw `self.since` to the writer while only
the fetch call receives the normalized date). -/
theorem viewid_timestamp_present (report : Report) (viewId since : String)
    (recs : List Dict) (h : allRecords report viewId since = Except.ok recs) :
    ∀ r ∈ recs, dictGet r "viewid" = some viewId ∧ dictGet r "timestamp" = some since := by
  simp only [allRecords] at h
  cases hm : exMapM (recordsOfRow (dimensionHeaders report.columnHeader)
      (metricHeaders report.columnHeader) viewId since) report.rows with
  | error e => rw [hm] at h; exact (Except.noConfusion h)
  | ok rss =>
    rw [hm] at h
    cases h
    intro r hr
    rcases List.mem_flatten.mp hr with ⟨rs, hrs, hrrs⟩
    rcases exMapM_ok_mem _ _ _ hm rs hrs with ⟨row, _, hok⟩
    exact recordsOfRow_ids _ _ _ _ _ _ hok r hrrs

/-- Witness for C6, with a raw `since` carrying a time of day: the record
keeps it verbatim. -/
theorem viewid_timestamp_present_witness :
    dictGet [("country", "US"), ("sessions", "42"), ("viewid", "123"),
        ("timestamp", "2020-01-02 03:04:05")] "viewid" = some "123"
  ∧ dictGet [("country", "US"), ("sessions", "42"), ("viewid", "123"),
        ("timestamp", "2020-01-02 03:04:05")] "timestamp" = some "2020-01-02 03:04:05" :=
  viewid_timestamp_present exReport "123" "2020-01-02 03:04:05"
    [[("country", "US"), ("sessions", "42"), ("viewid", "123"),
      ("timestamp", "2020-01-02 03:04:05")]] (by rfl)
    [("country", "US"), ("sessions", "42"), ("viewid", "123"),
      ("timestamp", "2020-01-02 03:04:05")] (by simp)

/-- C7 amended: the output key of a header name is the name with every
occurrence of the substring `"ga:"` removed (one left-to-right pass), then
lower-cased — not merely a leading namespace strip. -/
theorem header_key_strips_all (h v viewId since : String)
    (h1 : ¬ strLower (stripGA h) = "viewid") (h2 : ¬ strLower (stripGA h) = "timestamp") :
    recordsOfRow (dimensionHeaders ⟨[h], []⟩) (metricHeaders ⟨[h], []⟩) viewId since
      ⟨[v], [[]]⟩
      = Except.ok [[(strLower (stripGA h), v), ("viewid", viewId), ("timestamp", since)]] := by
  simp [recordsOfRow, dimensionHeaders, metricHeaders, setFields, exMapM, dictSet, h1, h2]

/-- Witness for C7: `"ga:sessions"` yields the output key `"sessions"`. -/
theorem header_key_strips_all_witness :
    recordsOfRow (dimensionHeaders ⟨["ga:sessions"], []⟩) (metricHeaders ⟨["ga:sessions"], []⟩)
      "123" "2021-05-01" ⟨["42"], [[]]⟩
      = Except.ok [[("sessions", "42"), ("viewid", "123"), ("timestamp", "2021-05-01")]] :=
  header_key_strips_all "ga:sessions" "42" "123" "2021-05-01" (by decide) (by decide)

/-- C7 counterexample: for the header name `"mega:sessions"` the code key
is `"mesessions"` (interior `"ga:"` removed), while stripping only a
leading namespace would give `"mega:sessions"`; no field exists under the
claimed key. -/
theorem header_key_not_only_leading :
    recordsOfRow (dimensionHeaders ⟨["mega:sessions"], []⟩)
      (metricHeaders ⟨["mega:sessions"], []⟩) "123" "2021-05-01" ⟨["US"], [[]]⟩
      = Except.ok [[("mesessions", "US"), ("viewid", "123"), ("timestamp", "2021-05-01")]]
  ∧ strLower (specStripGA "mega:sessions") = "mega:sessions"
  ∧ dictGet [("mesessions", "US"), ("viewid", "123"), ("timestamp", "2021-05-01")]
      "mega:sessions" = Option.none :=
  ⟨rfl, by decide, by decide⟩

/-- The truncating field assignment: only the first `vals.length` headers
(paired positionally with the supplied values) are written. -/
def zipFoldFields (headers : List Header) (vals : List String) (d : Dict) : Dict :=
  ((headers.take vals.length).zip vals).foldl
    (fun acc p => dictSet acc (strLower p.1.name) p.2) d

lemma setFields_eq_zipFold (headers : List Header) :
    ∀ (vs : List String) (i : Nat) (d : Dict), i + vs.length ≤ headers.length →
      setFields headers i vs d =
        Except.ok ((((headers.drop i).take vs.length).zip vs).foldl
          (fun acc p => dictSet acc (strLower p.1.name) p.2) d) := by
  intro vs
  induction vs with
  | nil => intro i d _; simp [setFields]
  | cons v vs ih =>
    intro i d h
    simp only [List.length_cons] at h
    have hi : i < headers.length := by omega
    simp only [setFields, List.getElem?_eq_getElem hi]
    rw [ih (i + 1) _ (by omega)]
    rw [List.drop_eq_getElem_cons hi]
    rfl

/-- C8: a row supplying fewer values than there are headers maps exactly
the first `n` headers (positionally) when `n` values are supplied — for
the dimension list and for every metric group — and the whole row
flattens without error. -/
theorem short_row_truncates (dimH metH : List Header) (viewId since : String)
    (row : ReportRow) (hd : row.dimensions.length ≤ dimH.length)
    (hm : ∀ g ∈ row.metrics, g.length ≤ metH.length) :
    setFields dimH 0 row.dimensions [] = Except.ok (zipFoldFields dimH row.dimensions [])
  ∧ (∀ g ∈ row.metrics, ∀ d : Dict,
      setFields metH 0 g d = Except.ok (zipFoldFields metH g d))
  ∧ ∃ recs, recordsOfRow dimH metH viewId since row = Except.ok recs := by
  have hdim : setFields dimH 0 row.dimensions [] = Except.ok (zipFoldFields dimH row.dimensions []) := by
    have := setFields_eq_zipFold dimH row.dimensions 0 [] (by omega)
    simpa [zipFoldFields] using this
  have hmet : ∀ g ∈ row.metrics, ∀ d : Dict,
      setFields metH 0 g d = Except.ok (zipFoldFields metH g d) := by
    intro g hg d
    have hle := hm g hg
    have := setFields_eq_zipFold metH g 0 d (by omega)
    simpa [zipFoldFields] using this
  refine ⟨hdim, hmet, ?_⟩
  have hall : ∀ g ∈ row.metrics,
      ∃ b, (match setFields metH 0 g (zipFoldFields dimH row.dimensions []) with
        | Except.error e => Except.error e
        | Except.ok d => Except.ok (dictSet (dictSet d "viewid" viewId) "timestamp" since))
        = Except.ok b := by
    intro g hg
    refine ⟨dictSet (dictSet (zipFoldFields metH g (zipFoldFields dimH row.dimensions []))
      "viewid" viewId) "timestamp" since, ?_⟩
    rw [hmet g hg (zipFoldFields dimH row.dimensions [])]
  rcases exMapM_ok_of_all _ row.metrics hall with ⟨recs, hrecs⟩
  refine ⟨recs, ?_⟩
  simp only [recordsOfRow, hdim]
  exact hrecs

/-- Witness for C8: one dimension value against two dimension headers —
only `country` is written, and the row flattens without error. -/
theorem short_row_truncates_witness :
    setFields (dimensionHeaders exColumnHeader2) 0 ["US"] []
        = Except.ok (zipFoldFields (dimensionHeaders exColumnHeader2) ["US"] [])
  ∧ (∀ g ∈ ([["42"]] : List (List String)), ∀ d : Dict,
      setFields (metricHeaders exColumnHeader2) 0 g d
        = Except.ok (zipFoldFields (metricHeaders exColumnHeader2) g d))
  ∧ ∃ recs, recordsOfRow (dimensionHeaders exColumnHeader2) (metricHeaders exColumnHeader2)
      "123" "2021-05-01" ⟨["US"], [["42"]]⟩ = Except.ok recs :=
  short_row_truncates (dimensionHeaders exColumnHeader2) (metricHeaders exColumnHeader2)
    "123" "2021-05-01" ⟨["US"], [["42"]]⟩ (by decide) (by decide)
